import Mathlib

/-!
Verification of the trains persistence layer (`src/ind/ind.py`).

The program stores trains in a DuckDB file with two tables:

  types  (type_id INTEGER PRIMARY KEY, type_title TEXT NOT NULL)
  trains (train_id INTEGER PRIMARY KEY, train_destination TEXT NOT NULL,
          type_id INTEGER NOT NULL, train_num INTEGER NOT NULL,
          FOREIGN KEY(type_id) REFERENCES types(type_id))

and two sequences `type_st`, `train_st` (both `START 1`) used via
`nextval`/`currval` to generate the primary keys.

We embed the database state shallowly: a table is a list of rows in
storage (insertion) order, a sequence is the `Nat` it will yield on its
next `nextval` call.  The four Python operations `create_db`,
`add_train`, `select_all` and `select_by_type` become Lean functions on
this state.  A second family of definitions (`*_run`) models the
connection lifecycle of each operation with error injection, to settle
the resource-release claim.
-/

namespace Trains

/-- A row of the `types` table: `(type_id, type_title)`. -/
structure TypeRow where
  type_id : Nat
  type_title : String
deriving DecidableEq, Repr

/-- A row of the `trains` table:
`(train_id, train_destination, type_id, train_num)`. -/
structure TrainRow where
  train_id : Nat
  train_destination : String
  type_id : Nat
  train_num : Int
deriving DecidableEq, Repr

/-- The database state after the schema exists: the two sequences
(`type_st`, `train_st` hold the value the next `nextval` returns) and the
two tables in storage order. -/
structure DB where
  type_st : Nat
  train_st : Nat
  types : List TypeRow
  trains : List TrainRow
deriving DecidableEq, Repr

/-- The state of a freshly initialized empty store: both sequences start
at 1 (`CREATE SEQUENCE ... START 1`), both tables empty. -/
def DB.initial : DB := ⟨1, 1, [], []⟩

/-- The query `SELECT type_id FROM types WHERE type_title = ?` followed
by `fetchone()`: the first row (in storage order) whose title equals
`typ`, if any. -/
def lookupType (types : List TypeRow) (typ : String) : Option TypeRow :=
  types.find? (fun ty => ty.type_title == typ)

/-- Embedding of `add_train(database_path, destination, typ, num)`
(src/ind/ind.py:93-141): look the type title up; if absent insert a new
`types` row keyed by `nextval('type_st')` (and read the id back with
`currval`), otherwise reuse the found `type_id`; then insert a `trains`
row keyed by `nextval('train_st')`. -/
def add_train (db : DB) (destination typ : String) (num : Int) : DB :=
  match lookupType db.types typ with
  | none =>
      { type_st := db.type_st + 1
        train_st := db.train_st + 1
        types := db.types ++ [⟨db.type_st, typ⟩]
        trains := db.trains ++ [⟨db.train_st, destination, db.type_st, num⟩] }
  | some row =>
      { db with
        train_st := db.train_st + 1
        trains := db.trains ++ [⟨db.train_st, destination, row.type_id, num⟩] }

/-- One record of the result of the two SELECT queries, as built by the
Python list comprehension: `{"destination": …, "typ": …, "num": …}`. -/
structure TrainRec where
  destination : String
  typ : String
  num : Int
deriving DecidableEq, Repr

/-- Embedding of `select_all(database_path)` (src/ind/ind.py:144-167):
`SELECT train_destination, type_title, train_num FROM trains INNER JOIN
types ON types.type_id = trains.type_id`, scanned in the storage order
of `trains`. -/
def select_all (db : DB) : List TrainRec :=
  db.trains.flatMap (fun tr =>
    (db.types.filter (fun ty => ty.type_id == tr.type_id)).map
      (fun ty => ⟨tr.train_destination, ty.type_title, tr.train_num⟩))

/-- Embedding of `select_by_type(database_path, train_type)`
(src/ind/ind.py:170-199): the same join with the extra condition
`WHERE types.type_title = ?`. -/
def select_by_type (db : DB) (train_type : String) : List TrainRec :=
  db.trains.flatMap (fun tr =>
    (db.types.filter
        (fun ty => ty.type_id == tr.type_id && ty.type_title == train_type)).map
      (fun ty => ⟨tr.train_destination, ty.type_title, tr.train_num⟩))

/-- The on-disk storage as `create_db` sees it: each schema object
(`type_st` and `train_st` sequences, `types` and `trains` tables) either
absent (`none`) or present with its data.  The catalog holds at most one
object per name, which is what `IF NOT EXISTS` relies on. -/
structure Storage where
  type_st : Option Nat
  train_st : Option Nat
  types : Option (List TypeRow)
  trains : Option (List TrainRow)
deriving DecidableEq, Repr

/-- Semantics of `CREATE ... IF NOT EXISTS`: create the object with its
fresh initial value only when it is absent, otherwise leave it
untouched. -/
def createIfAbsent {α : Type} (cur : Option α) (fresh : α) : Option α :=
  match cur with
  | none => some fresh
  | some v => some v

/-- Embedding of `create_db(database_path)` (src/ind/ind.py:50-90):
create, each with `IF NOT EXISTS`, the `type_st` and `train_st`
sequences (`START 1`) and the empty `types` and `trains` tables. -/
def create_db (s : Storage) : Storage :=
  { type_st := createIfAbsent s.type_st 1
    train_st := createIfAbsent s.train_st 1
    types := createIfAbsent s.types []
    trains := createIfAbsent s.trains [] }

/-- The completely empty storage (fresh database file). -/
def Storage.empty : Storage := ⟨none, none, none, none⟩

/-- The type id `add_train` resolves for a title: the id of the first
matching `types` row, or the freshly generated `nextval('type_st')` when
the title is absent. -/
def resolvedTypeId (db : DB) (typ : String) : Nat :=
  match lookupType db.types typ with
  | some row => row.type_id
  | none => db.type_st

/-- The type title `select_all` attaches to a train: the title of the
first `types` row carrying the train's `type_id` (unique under `Wf`). -/
def typeTitleOf (db : DB) (tid : Nat) : String :=
  match db.types.find? (fun ty => ty.type_id == tid) with
  | some ty => ty.type_title
  | none => ""

/-- Well-formedness of a database state, as DuckDB's constraints
guarantee it: the foreign key gives referential integrity, the primary
keys make ids unique, `add_train`'s lookup-or-create keeps titles
unique, and every stored id is below its sequence's next value. -/
def Wf (db : DB) : Prop :=
  (∀ tr ∈ db.trains, ∃ ty ∈ db.types, ty.type_id = tr.type_id) ∧
  (db.types.map (fun ty => ty.type_title)).Nodup ∧
  (db.types.map (fun ty => ty.type_id)).Nodup ∧
  (db.trains.map (fun tr => tr.train_id)).Nodup ∧
  (∀ ty ∈ db.types, ty.type_id < db.type_st) ∧
  (∀ tr ∈ db.trains, tr.train_id < db.train_st)

instance (db : DB) : Decidable (Wf db) := by
  unfold Wf; infer_instance

/-- The database states the program can produce: the initialized empty
store, followed by any number of `add_train` calls (`select_all` and
`select_by_type` are pure reads and do not modify the state). -/
inductive Reachable : DB → Prop
  | init : Reachable DB.initial
  | step (db : DB) (destination typ : String) (num : Int) :
      Reachable db → Reachable (add_train db destination typ num)

/-- The connection-lifecycle outcome of one operation: `ok` is true when
every storage call returned normally, `released` is true when
`conn.close()` was executed before the function returned. -/
structure RunOutcome where
  ok : Bool
  released : Bool
deriving DecidableEq, Repr

/-- Connection lifecycle of `create_db` (src/ind/ind.py:50-90) with
error injection: `failStep k` means the `k`-th storage call
(`cursor.execute`) raises.  The function runs `connect`, four `execute`
calls, then `conn.close()`; there is no `try`/`finally` or `with`
block, so an exception in an `execute` propagates before `close` runs. -/
def create_db_run (failStep : Nat → Bool) : RunOutcome :=
  if failStep 0 then ⟨false, false⟩
  else if failStep 1 then ⟨false, false⟩
  else if failStep 2 then ⟨false, false⟩
  else if failStep 3 then ⟨false, false⟩
  else ⟨true, true⟩

/-- Connection lifecycle of `add_train` (src/ind/ind.py:93-141) with
error injection.  Step 0 is the title lookup; when the title is absent
the steps are: 1 insert type, 2 `currval` select, 3 insert train,
4 commit; when it is present: 1 insert train, 2 commit.  `conn.close()`
runs only after all of them succeed (no `try`/`finally`). -/
def add_train_run (failStep : Nat → Bool) (db : DB) (typ : String) : RunOutcome :=
  if failStep 0 then ⟨false, false⟩
  else
    match lookupType db.types typ with
    | none =>
        if failStep 1 then ⟨false, false⟩
        else if failStep 2 then ⟨false, false⟩
        else if failStep 3 then ⟨false, false⟩
        else if failStep 4 then ⟨false, false⟩
        else ⟨true, true⟩
    | some _ =>
        if failStep 1 then ⟨false, false⟩
        else if failStep 2 then ⟨false, false⟩
        else ⟨true, true⟩

/-- Connection lifecycle of `select_all` (src/ind/ind.py:144-167) with
error injection: one `execute` (step 0), then `conn.close()`. -/
def select_all_run (failStep : Nat → Bool) : RunOutcome :=
  if failStep 0 then ⟨false, false⟩ else ⟨true, true⟩

/-- Connection lifecycle of `select_by_type` (src/ind/ind.py:170-199)
with error injection: one `execute` (step 0), then `conn.close()`. -/
def select_by_type_run (failStep : Nat → Bool) : RunOutcome :=
  if failStep 0 then ⟨false, false⟩ else ⟨true, true⟩

/-- A sample populated state: the spec's §8 example, two inserts with
the shared type "Express". -/
def sampleDB : DB :=
  add_train (add_train DB.initial "Moscow" "Express" 101) "Kazan" "Express" 102

/- ------------------------------------------------------------------ -/
/- Helper lemmas                                                      -/
/- ------------------------------------------------------------------ -/

lemma wf_initial : Wf DB.initial := by decide

lemma wf_add_train (db : DB) (destination typ : String) (num : Int)
    (h : Wf db) : Wf (add_train db destination typ num) := by
  obtain ⟨hri, httl, htid, hnid, htb, hnb⟩ := h
  unfold add_train
  cases hfind : lookupType db.types typ with
  | none =>
      refine ⟨?_, ?_, ?_, ?_, ?_, ?_⟩
      · intro tr htr
        rcases List.mem_append.1 htr with htr | htr
        · obtain ⟨ty, hty, he⟩ := hri tr htr
          exact ⟨ty, List.mem_append_left _ hty, he⟩
        · simp only [List.mem_singleton] at htr
          subst htr
          exact ⟨⟨db.type_st, typ⟩, List.mem_append_right _ (List.mem_singleton.2 rfl), rfl⟩
      · rw [List.map_append, List.nodup_append]
        refine ⟨httl, List.nodup_singleton _, ?_⟩
        intro a ha hb
        simp only [List.map_cons, List.map_nil, List.mem_singleton] at hb
        subst hb
        rw [List.mem_map] at ha
        obtain ⟨ty, hty, he⟩ := ha
        have := List.find?_eq_none.1 hfind ty hty
        simp only [beq_iff_eq] at this
        exact this he
      · rw [List.map_append, List.nodup_append]
        refine ⟨htid, List.nodup_singleton _, ?_⟩
        intro a ha hb
        simp only [List.map_cons, List.map_nil, List.mem_singleton] at hb
        subst hb
        rw [List.mem_map] at ha
        obtain ⟨ty, hty, he⟩ := ha
        exact absurd he (Nat.ne_of_lt (htb ty hty))
      · rw [List.map_append, List.nodup_append]
        refine ⟨hnid, List.nodup_singleton _, ?_⟩
        intro a ha hb
        simp only [List.map_cons, List.map_nil, List.mem_singleton] at hb
        subst hb
        rw [List.mem_map] at ha
        obtain ⟨tr, htr, he⟩ := ha
        exact absurd he (Nat.ne_of_lt (hnb tr htr))
      · intro ty hty
        rcases List.mem_append.1 hty with hty | hty
        · exact Nat.lt_succ_of_lt (htb ty hty)
        · simp only [List.mem_singleton] at hty
          subst hty
          exact Nat.lt_succ_self _
      · intro tr htr
        rcases List.mem_append.1 htr with htr | htr
        · exact Nat.lt_succ_of_lt (hnb tr htr)
        · simp only [List.mem_singleton] at htr
          subst htr
          exact Nat.lt_succ_self _
  | some row =>
      have hrow : row ∈ db.types := List.mem_of_find?_eq_some hfind
      refine ⟨?_, httl, htid, ?_, htb, ?_⟩
      · intro tr htr
        rcases List.mem_append.1 htr with htr | htr
        · exact hri tr htr
        · simp only [List.mem_singleton] at htr
          subst htr
          exact ⟨row, hrow, rfl⟩
      · rw [List.map_append, List.nodup_append]
        refine ⟨hnid, List.nodup_singleton _, ?_⟩
        intro a ha hb
        simp only [List.map_cons, List.map_nil, List.mem_singleton] at hb
        subst hb
        rw [List.mem_map] at ha
        obtain ⟨tr, htr, he⟩ := ha
        exact absurd he (Nat.ne_of_lt (hnb tr htr))
      · intro tr htr
        rcases List.mem_append.1 htr with htr | htr
        · exact Nat.lt_succ_of_lt (hnb tr htr)
        · simp only [List.mem_singleton] at htr
          subst htr
          exact Nat.lt_succ_self _

lemma reachable_wf (db : DB) (h : Reachable db) : Wf db := by
  induction h with
  | init => exact wf_initial
  | step db destination typ num _ ih => exact wf_add_train db destination typ num ih

/-- In a list whose image under `f` has no duplicates, filtering for the
`f`-value of a member yields exactly that member. -/
lemma filter_eq_singleton_of_nodup {α β : Type} [DecidableEq β] (f : α → β)
    (l : List α) (a : α) (hnd : (l.map f).Nodup) (ha : a ∈ l) :
    l.filter (fun x => f x == f a) = [a] := by
  induction l with
  | nil => cases ha
  | cons b tl ih =>
      rw [List.map_cons, List.nodup_cons] at hnd
      obtain ⟨hb, htl⟩ := hnd
      rcases List.mem_cons.1 ha with rfl | ha
      · rw [List.filter_cons, if_pos (by simp)]
        have : tl.filter (fun x => f x == f a) = [] := by
          rw [List.filter_eq_nil_iff]
          intro x hx hfx
          exact hb (List.mem_map.2 ⟨x, hx, by simpa using hfx⟩)
        rw [this]
      · have hba : (f b == f a) = false := by
          rw [beq_eq_false_iff_ne]
          intro he
          exact hb (List.mem_map.2 ⟨a, ha, he.symm⟩)
        rw [List.filter_cons, if_neg (by simp [hba]), ih htl ha]

/-- If filtering leaves exactly one element, `find?` returns it. -/
lemma find?_of_filter_singleton {α : Type} (p : α → Bool) (l : List α) (a : α)
    (h : l.filter p = [a]) : l.find? p = some a := by
  induction l with
  | nil => simp at h
  | cons b tl ih =>
      rw [List.filter_cons] at h
      by_cases hb : p b
      · rw [if_pos hb] at h
        rw [List.cons_eq_cons] at h
        obtain ⟨rfl, -⟩ := h
        exact List.find?_cons_of_pos _ hb
      · rw [if_neg hb] at h
        rw [List.find?_cons_of_neg _ hb]
        exact ih h

/-- A `flatMap` whose bodies are all singletons is a `map`. -/
lemma flatMap_eq_map_of_singleton {α β : Type} (f : α → List β) (g : α → β)
    (l : List α) (h : ∀ x ∈ l, f x = [g x]) : l.flatMap f = l.map g := by
  induction l with
  | nil => rfl
  | cons b tl ih =>
      rw [List.flatMap_cons, List.map_cons, h b (List.mem_cons_self b tl),
        ih (fun x hx => h x (List.mem_cons_of_mem _ hx)), List.singleton_append]

/-- `filter` distributes over `flatMap`. -/
lemma filter_flatMap_eq {α β : Type} (l : List α) (f : α → List β) (q : β → Bool) :
    (l.flatMap f).filter q = l.flatMap (fun x => (f x).filter q) := by
  induction l with
  | nil => rfl
  | cons b tl ih => rw [List.flatMap_cons, List.flatMap_cons, List.filter_append, ih]

lemma add_train_trains_eq (db : DB) (destination typ : String) (num : Int) :
    (add_train db destination typ num).trains =
      db.trains ++ [⟨db.train_st, destination, resolvedTypeId db typ, num⟩] := by
  unfold add_train resolvedTypeId
  cases lookupType db.types typ <;> rfl

lemma add_train_train_st_eq (db : DB) (destination typ : String) (num : Int) :
    (add_train db destination typ num).train_st = db.train_st + 1 := by
  unfold add_train
  cases lookupType db.types typ <;> rfl

lemma add_train_types_none (db : DB) (destination typ : String) (num : Int)
    (h : lookupType db.types typ = none) :
    (add_train db destination typ num).types = db.types ++ [⟨db.type_st, typ⟩] := by
  unfold add_train
  rw [h]

lemma add_train_types_some (db : DB) (destination typ : String) (num : Int)
    (row : TypeRow) (h : lookupType db.types typ = some row) :
    (add_train db destination typ num).types = db.types := by
  unfold add_train
  rw [h]

lemma add_train_type_st_none (db : DB) (destination typ : String) (num : Int)
    (h : lookupType db.types typ = none) :
    (add_train db destination typ num).type_st = db.type_st + 1 := by
  unfold add_train
  rw [h]

lemma add_train_type_st_some (db : DB) (destination typ : String) (num : Int)
    (row : TypeRow) (h : lookupType db.types typ = some row) :
    (add_train db destination typ num).type_st = db.type_st := by
  unfold add_train
  rw [h]

/-- Filtering after mapping over a filtered list fuses into one filter. -/
lemma filter_map_filter {α β : Type} (p : α → Bool) (g : α → β) (q : β → Bool)
    (l : List α) :
    ((l.filter p).map g).filter q = (l.filter (fun a => p a && q (g a))).map g := by
  induction l with
  | nil => rfl
  | cons b tl ih =>
      by_cases hb : p b
      · by_cases hq : q (g b)
        · simp [List.filter_cons, hb, hq, ih]
        · simp [List.filter_cons, hb, hq, ih]
      · simp [List.filter_cons, hb, ih]

/-- Membership in the filtered join, unfolded to the two tables. -/
lemma mem_select_by_type (db : DB) (t : String) (rec : TrainRec) :
    rec ∈ select_by_type db t ↔
      ∃ tr ∈ db.trains, ∃ ty ∈ db.types,
        ty.type_id = tr.type_id ∧ ty.type_title = t ∧
        rec = ⟨tr.train_destination, ty.type_title, tr.train_num⟩ := by
  unfold select_by_type
  rw [List.mem_flatMap]
  constructor
  · rintro ⟨tr, htr, hrec⟩
    rw [List.mem_map] at hrec
    obtain ⟨ty, hty, he⟩ := hrec
    rw [List.mem_filter] at hty
    obtain ⟨hty, hpred⟩ := hty
    simp only [Bool.and_eq_true, beq_iff_eq] at hpred
    exact ⟨tr, htr, ty, hty, hpred.1, hpred.2, he.symm⟩
  · rintro ⟨tr, htr, ty, hty, h1, h2, rfl⟩
    exact ⟨tr, htr, List.mem_map.2 ⟨ty, List.mem_filter.2 ⟨hty, by simp [h1, h2]⟩, rfl⟩⟩

end Trains

namespace Trains

/-- C1: `add_train` deduplicates types: with no `types` row titled
`typ`, it adds exactly one `types` row (titled `typ`, keyed by the type
sequence) and exactly one `trains` row; with such a row present it adds
no `types` row and exactly one `trains` row reusing the existing
`type_id`. -/
theorem add_train_type_dedup (db : DB) (destination typ : String) (num : Int) :
    ((∀ ty ∈ db.types, ty.type_title ≠ typ) →
      (add_train db destination typ num).types = db.types ++ [⟨db.type_st, typ⟩] ∧
      (add_train db destination typ num).trains =
        db.trains ++ [⟨db.train_st, destination, db.type_st, num⟩]) ∧
    ((∃ ty ∈ db.types, ty.type_title = typ) →
      (add_train db destination typ num).types = db.types ∧
      ∃ row ∈ db.types, row.type_title = typ ∧
        (add_train db destination typ num).trains =
          db.trains ++ [⟨db.train_st, destination, row.type_id, num⟩]) := by
  constructor
  · intro habs
    have hfind : lookupType db.types typ = none := by
      rw [lookupType, List.find?_eq_none]
      intro ty hty
      simpa using habs ty hty
    refine ⟨add_train_types_none db destination typ num hfind, ?_⟩
    rw [add_train_trains_eq]
    unfold resolvedTypeId
    rw [hfind]
  · rintro ⟨ty, hty, he⟩
    cases hfind : lookupType db.types typ with
    | none =>
        exfalso
        have := List.find?_eq_none.1 hfind ty hty
        simp [he] at this
    | some row =>
        have hrow : row ∈ db.types := List.mem_of_find?_eq_some hfind
        have hrt : row.type_title = typ := by
          simpa using List.find?_some hfind
        refine ⟨add_train_types_some db destination typ num row hfind,
          row, hrow, hrt, ?_⟩
        rw [add_train_trains_eq]
        unfold resolvedTypeId
        rw [hfind]

/-- Witness for C1: on the empty store a fresh title "Express" creates
the type row; on the sample store a third insert with the existing title
"Express" leaves `types` unchanged. -/
theorem add_train_type_dedup_witness :
    (add_train DB.initial "Moscow" "Express" 101).types =
      DB.initial.types ++ [⟨1, "Express"⟩] ∧
    (add_train sampleDB "Perm" "Express" 103).types = sampleDB.types := by
  constructor
  · exact ((add_train_type_dedup DB.initial "Moscow" "Express" 101).1
      (by decide)).1
  · exact ((add_train_type_dedup sampleDB "Perm" "Express" 103).2
      ⟨⟨1, "Express"⟩, by decide, rfl⟩).1

/-- C2: round-trip — after `add_train db destination typ num`, querying
`select_by_type` with `typ` returns a record equal to
`{destination, typ, num}`. -/
theorem add_train_roundtrip (db : DB) (destination typ : String) (num : Int) :
    (⟨destination, typ, num⟩ : TrainRec) ∈
      select_by_type (add_train db destination typ num) typ := by
  rw [mem_select_by_type]
  refine ⟨⟨db.train_st, destination, resolvedTypeId db typ, num⟩, ?_, ?_⟩
  · rw [add_train_trains_eq]
    exact List.mem_append_right _ (List.mem_singleton.2 rfl)
  · cases hfind : lookupType db.types typ with
    | none =>
        refine ⟨⟨db.type_st, typ⟩, ?_, ?_, rfl, rfl⟩
        · rw [add_train_types_none db destination typ num hfind]
          exact List.mem_append_right _ (List.mem_singleton.2 rfl)
        · show db.type_st = resolvedTypeId db typ
          unfold resolvedTypeId
          rw [hfind]
    | some row =>
        have hrt : row.type_title = typ := by
          simpa using List.find?_some hfind
        refine ⟨row, ?_, ?_, hrt, by rw [hrt]⟩
        · rw [add_train_types_some db destination typ num row hfind]
          exact List.mem_of_find?_eq_some hfind
        · show row.type_id = resolvedTypeId db typ
          unfold resolvedTypeId
          rw [hfind]

/-- C9: frame property — `add_train` only appends: the old `types` list
is a prefix of the new one (extended by at most one row) and the old
`trains` list is extended by exactly the one new row; no existing row is
updated or deleted. -/
theorem add_train_appends_only (db : DB) (destination typ : String) (num : Int) :
    ((add_train db destination typ num).types = db.types ∨
      (add_train db destination typ num).types = db.types ++ [⟨db.type_st, typ⟩]) ∧
    (add_train db destination typ num).trains =
      db.trains ++ [⟨db.train_st, destination, resolvedTypeId db typ, num⟩] := by
  refine ⟨?_, add_train_trains_eq db destination typ num⟩
  cases hfind : lookupType db.types typ with
  | none => exact Or.inr (add_train_types_none db destination typ num hfind)
  | some row => exact Or.inl (add_train_types_some db destination typ num row hfind)

/-- C10: no argument validation — an empty destination is stored
verbatim in the new `trains` row, and an empty type title goes through
the same lookup-or-create as any other title. -/
theorem add_train_no_validation (db : DB) (destination typ : String) (num : Int) :
    (add_train db "" typ num).trains =
      db.trains ++ [⟨db.train_st, "", resolvedTypeId db typ, num⟩] ∧
    (∀ row, lookupType db.types "" = some row →
      (add_train db destination "" num).types = db.types) ∧
    (lookupType db.types "" = none →
      (add_train db destination "" num).types = db.types ++ [⟨db.type_st, ""⟩]) := by
  refine ⟨add_train_trains_eq db "" typ num, ?_, ?_⟩
  · intro row h
    exact add_train_types_some db destination "" num row h
  · intro h
    exact add_train_types_none db destination "" num h

/-- Witness for C10: on the empty store, inserting with empty
destination and empty title stores both empty strings. -/
theorem add_train_no_validation_witness :
    (add_train DB.initial "" "" 7).trains = [⟨1, "", 1, 7⟩] ∧
    (add_train DB.initial "x" "" 7).types = [⟨1, ""⟩] := by
  constructor
  · have h := (add_train_no_validation DB.initial "x" "" 7).1
    simpa using h
  · have h := (add_train_no_validation DB.initial "x" "" 7).2.2 (by decide)
    simpa using h

/-- C3: on every database state the schema constraints allow (the
foreign key gives referential integrity, the primary key makes type ids
unique), `select_all` returns exactly one record per `trains` row,
carrying the title of the referenced `types` row; in particular its
length equals the number of trains and it is empty (not an error) when
`trains` is empty. -/
theorem select_all_records (db : DB)
    (hri : ∀ tr ∈ db.trains, ∃ ty ∈ db.types, ty.type_id = tr.type_id)
    (hids : (db.types.map (fun ty => ty.type_id)).Nodup) :
    select_all db =
      db.trains.map (fun tr =>
        ⟨tr.train_destination, typeTitleOf db tr.type_id, tr.train_num⟩) ∧
    (select_all db).length = db.trains.length ∧
    (db.trains = [] → select_all db = []) := by
  have hmain : select_all db = db.trains.map (fun tr =>
      (⟨tr.train_destination, typeTitleOf db tr.type_id, tr.train_num⟩ : TrainRec)) := by
    unfold select_all
    apply flatMap_eq_map_of_singleton
    intro tr htr
    obtain ⟨ty, hty, he⟩ := hri tr htr
    have hfilter : db.types.filter (fun x => x.type_id == tr.type_id) = [ty] := by
      have hf := filter_eq_singleton_of_nodup (fun x => x.type_id) db.types ty
        hids hty
      simp only [] at hf
      rw [he] at hf
      exact hf
    rw [hfilter]
    have hfind : db.types.find? (fun x => x.type_id == tr.type_id) = some ty :=
      find?_of_filter_singleton _ _ _ hfilter
    simp [typeTitleOf, hfind]
  refine ⟨hmain, ?_, ?_⟩
  · rw [hmain, List.length_map]
  · intro hnil
    rw [hmain, hnil]
    rfl

/-- Witness for C3: the sample store satisfies both schema constraints
and `select_all` returns as many records as it has trains. -/
theorem select_all_records_witness :
    (∀ tr ∈ sampleDB.trains, ∃ ty ∈ sampleDB.types, ty.type_id = tr.type_id) ∧
    (sampleDB.types.map (fun ty => ty.type_id)).Nodup ∧
    (select_all sampleDB).length = sampleDB.trains.length :=
  ⟨by decide, by decide,
    (select_all_records sampleDB (by decide) (by decide)).2.1⟩

/-- C4: `select_by_type` returns exactly the records of `select_all`
whose title equals the given string (case-sensitive `=` comparison), and
the empty sequence when no record matches. -/
theorem select_by_type_filters (db : DB) (train_type : String) :
    select_by_type db train_type =
      (select_all db).filter (fun r => r.typ == train_type) ∧
    ((∀ r ∈ select_all db, r.typ ≠ train_type) →
      select_by_type db train_type = []) := by
  have hmain : select_by_type db train_type =
      (select_all db).filter (fun r => r.typ == train_type) := by
    unfold select_by_type select_all
    rw [filter_flatMap_eq]
    congr 1
    funext tr
    rw [filter_map_filter]
  refine ⟨hmain, ?_⟩
  intro habs
  rw [hmain, List.filter_eq_nil_iff]
  intro r hr
  simpa using habs r hr

/-- Witness for C4: the sample store has no "Local" train, so the
filtered query returns the empty list. -/
theorem select_by_type_filters_witness :
    select_by_type sampleDB "Local" = [] :=
  (select_by_type_filters sampleDB "Local").2 (by decide)

/-- C5: `create_db` is idempotent — a second call is a no-op (so it
raises no error and changes no stored data), and after one call each of
the two sequences and two tables exists exactly once, the catalog
holding at most one object per name. -/
theorem create_db_idempotent (s : Storage) :
    create_db (create_db s) = create_db s ∧
    (create_db s).type_st.isSome = true ∧
    (create_db s).train_st.isSome = true ∧
    (create_db s).types.isSome = true ∧
    (create_db s).trains.isSome = true := by
  obtain ⟨a, b, c, d⟩ := s
  cases a <;> cases b <;> cases c <;> cases d <;>
    exact ⟨rfl, rfl, rfl, rfl, rfl⟩

/-- C6: in every state reachable from the initialized empty store by
the mutating operation `add_train` (the two SELECT operations do not
modify state), every train references an existing type row and type
titles are pairwise distinct. -/
theorem reachable_invariant (db : DB) (h : Reachable db) :
    (∀ tr ∈ db.trains, ∃ ty ∈ db.types, ty.type_id = tr.type_id) ∧
    (db.types.map (fun ty => ty.type_title)).Nodup :=
  ⟨(reachable_wf db h).1, (reachable_wf db h).2.1⟩

/-- Witness for C6: the invariant holds in the concrete two-insert
sample state, reached by two `add_train` steps from the empty store. -/
theorem reachable_invariant_witness :
    (∀ tr ∈ sampleDB.trains, ∃ ty ∈ sampleDB.types, ty.type_id = tr.type_id) ∧
    (sampleDB.types.map (fun ty => ty.type_title)).Nodup :=
  reachable_invariant sampleDB
    (Reachable.step _ "Kazan" "Express" 102
      (Reachable.step _ "Moscow" "Express" 101 Reachable.init))

/-- C7: ids come from two independent monotone sequences — the new
train row is keyed by `train_st`, strictly above every existing train
id; a newly created type row is keyed by `type_st`, strictly above every
existing type id; and when no type row is created the type sequence is
not advanced. -/
theorem sequences_monotone (db : DB) (destination typ : String) (num : Int)
    (h : Wf db) :
    (add_train db destination typ num).train_st = db.train_st + 1 ∧
    (∃ tr, (add_train db destination typ num).trains = db.trains ++ [tr] ∧
      tr.train_id = db.train_st ∧
      ∀ tr0 ∈ db.trains, tr0.train_id < tr.train_id) ∧
    (lookupType db.types typ = none →
      (add_train db destination typ num).type_st = db.type_st + 1 ∧
      ∃ ty, (add_train db destination typ num).types = db.types ++ [ty] ∧
        ty.type_id = db.type_st ∧
        ∀ ty0 ∈ db.types, ty0.type_id < ty.type_id) ∧
    (∀ row, lookupType db.types typ = some row →
      (add_train db destination typ num).type_st = db.type_st ∧
      (add_train db destination typ num).types = db.types) := by
  refine ⟨add_train_train_st_eq db destination typ num, ?_, ?_, ?_⟩
  · exact ⟨⟨db.train_st, destination, resolvedTypeId db typ, num⟩,
      add_train_trains_eq db destination typ num, rfl, h.2.2.2.2.2⟩
  · intro hfind
    exact ⟨add_train_type_st_none db destination typ num hfind,
      ⟨db.type_st, typ⟩, add_train_types_none db destination typ num hfind, rfl,
      h.2.2.2.2.1⟩
  · intro row hfind
    exact ⟨add_train_type_st_some db destination typ num row hfind,
      add_train_types_some db destination typ num row hfind⟩

/-- Witness for C7: inserting a fresh type "Local" into the well-formed
sample store advances both sequences by one. -/
theorem sequences_monotone_witness :
    Wf sampleDB ∧
    (add_train sampleDB "Perm" "Local" 5).train_st = sampleDB.train_st + 1 ∧
    (add_train sampleDB "Perm" "Local" 5).type_st = sampleDB.type_st + 1 := by
  refine ⟨by decide, ?_, ?_⟩
  · exact (sequences_monotone sampleDB "Perm" "Local" 5 (by decide)).1
  · exact ((sequences_monotone sampleDB "Perm" "Local" 5 (by decide)).2.2.1
      (by decide)).1

/-- C8 counterexample: the operations have no `try`/`finally` or `with`
block, so when the very first storage call raises, `add_train` returns
(propagates) without executing `conn.close()` — the connection is not
released on the error path. -/
theorem connection_release_counterexample :
    (add_train_run (fun _ => true) DB.initial "Express").released = false := rfl

/-- C8 amended: each operation opens a connection and releases it
before returning exactly on the runs in which every storage call
succeeds; when a storage call raises, the exception propagates without
an explicit release. -/
theorem connection_release_on_success (failStep : Nat → Bool) (db : DB)
    (typ : String) :
    (create_db_run failStep).released = (create_db_run failStep).ok ∧
    (add_train_run failStep db typ).released = (add_train_run failStep db typ).ok ∧
    (select_all_run failStep).released = (select_all_run failStep).ok ∧
    (select_by_type_run failStep).released = (select_by_type_run failStep).ok := by
  refine ⟨?_, ?_, ?_, ?_⟩
  · unfold create_db_run
    repeat' split
    all_goals rfl
  · unfold add_train_run
    repeat' split
    all_goals rfl
  · unfold select_all_run
    repeat' split
    all_goals rfl
  · unfold select_by_type_run
    repeat' split
    all_goals rfl

end Trains
